/-
Verification of the row-generation core (`src/generator.py`) of the
row-generation repository.

The Python source operates on planar (projected) geometry via shapely.
We embed it shallowly:

* planar coordinates are idealized as exact rationals (`ℚ`);
* the source rotates geometry by `-angle_deg` where
  `angle_rad = atan2(by - ay, bx - ax)` (generator.py lines 194-201);
  since `cos`/`sin` of that angle are not rational in general, the
  rotation is embedded as a function of the exact cosine/sine pair
  `(c, s)` of the computed angle; the predicate `atan2CS` states that
  `(c, s)` is that pair (for `A ≠ B`; Python's `math.atan2(0, 0) = 0`
  gives `(c, s) = (1, 0)` in the degenerate case `A = B`);
* external library calls (pyproj projection `_from_utm` / `_to_utm`,
  the shapely polygon intersection of lines 234-250 together with its
  LineString / MultiLineString / GeometryCollection classification, and
  the affine turn-attachment geometry) are abstracted as function
  parameters of the pipeline, since no verified claim depends on their
  internals, only on how the pipeline routes their results;
* Euclidean distances are only ever *compared* in the source
  (lines 345-353); comparisons of distances are equivalent to
  comparisons of squared distances, so the embedding uses `distSq`;
* Python exceptions escaping `generate_rows_geojson` are modelled with
  `Except String`; `uuid.uuid4()` (lines 328, 368, 412, 450) is
  modelled as an injected stream `ids : ℕ → String` consumed in call
  order, and the `datetime.now` timestamp of lines 298-299 as an
  injected `ts : String`.
-/
import Mathlib

namespace RowGen

/-- A planar point with idealized exact rational coordinates. -/
abbrev Pt := ℚ × ℚ

/-- First coordinate of a coordinate sequence (`coords[0]` in Python;
all sequences handled by the source are nonempty). -/
def headPt (l : List Pt) : Pt := l.headI

/-- Last coordinate of a coordinate sequence (`coords[-1]` in Python). -/
def lastPt (l : List Pt) : Pt := l.getLastD ((0 : ℚ), (0 : ℚ))

/-- Rotation by `-θ` about origin `o`, where `c = cos θ` and `s = sin θ`:
embeds `_rotate(geom, -angle_deg, origin=rotation_origin)`
(generator.py lines 35-36 and 200-201) applied to one point. -/
def rotNeg (c s : ℚ) (o p : Pt) : Pt :=
  (o.1 + c * (p.1 - o.1) + s * (p.2 - o.2),
   o.2 - s * (p.1 - o.1) + c * (p.2 - o.2))

/-- Rotation by `+θ` about origin `o`, where `c = cos θ` and `s = sin θ`:
embeds `_rotate(geom, angle_deg, origin=rotation_origin)`
(generator.py lines 322 and 357) applied to one point. -/
def rotPos (c s : ℚ) (o p : Pt) : Pt :=
  (o.1 + c * (p.1 - o.1) - s * (p.2 - o.2),
   o.2 + s * (p.1 - o.1) + c * (p.2 - o.2))

/-- `(c, s)` is the exact cosine/sine pair of
`angle_rad = math.atan2(b.2 - a.2, b.1 - a.1)` (generator.py line 195)
for a non-degenerate reference line `A ≠ B`: the direction vector
`B - A` is a positive multiple `L` (its length) of `(c, s)`. -/
def atan2CS (a b : Pt) (c s : ℚ) : Prop :=
  c ^ 2 + s ^ 2 = 1 ∧ ∃ L : ℚ, 0 < L ∧ b.1 - a.1 = c * L ∧ b.2 - a.2 = s * L

/-- Python's `f"{num:02d}"`: decimal rendering zero-padded to width 2,
the sign counting toward the width (generator.py line 88). -/
def fmt02 (n : ℤ) : String :=
  let r := toString n
  if r.length ≥ 2 then r else "0" ++ r

/-- Embeds `_label_sequence` (generator.py lines 75-91).
If `keepStartLetter` the letter part is the upper-cased start letter,
otherwise it cycles through the alphabet with the index
(`chr(((ord(start_letter.upper()) - 65) + index) % 26 + 65)`; note that
Python's `%` on a positive modulus agrees with `Int.emod`).
The number part is `start_num + index`, zero-padded when requested. -/
def labelSequence (startLetter : Char) (startNum : ℤ) (index : ℤ)
    (zeroPad : Bool) (keepStartLetter : Bool) : String :=
  let letter : Char :=
    if keepStartLetter then startLetter.toUpper
    else Char.ofNat ((((startLetter.toUpper.toNat : ℤ) - 65 + index) % 26 + 65).toNat)
  let num : ℤ := startNum + index
  let numS : String := if zeroPad then fmt02 num else toString num
  letter.toString ++ numS

/-- The label attached to the row at `index` (generator.py lines
313-319): the single `_label_sequence` label, or the `label1/label2`
pair when `dual_zone` is set. -/
def rowLabel (startLetter : Char) (startNum : ℤ) (zeroPad dualZone keepStartLetter : Bool)
    (index : ℤ) : String :=
  if dualZone then
    labelSequence startLetter startNum index zeroPad keepStartLetter ++ "/" ++
      labelSequence startLetter startNum (index + 1) zeroPad keepStartLetter
  else
    labelSequence startLetter startNum index zeroPad keepStartLetter

/-- Bounding box of the rotated area polygon (`area_rot.bounds`,
generator.py line 210). -/
structure Bounds where
  minx : ℚ
  miny : ℚ
  maxx : ℚ
  maxy : ℚ
  deriving DecidableEq

/-- Python's `range(lo, hi)` over integers. -/
def pyRange (lo hi : ℤ) : List ℤ :=
  (List.range (hi - lo).toNat).map (fun k : ℕ => lo + (k : ℤ))

/-- `rows_below = int(math.ceil((reference_y - miny) / spacing_m)) + 2`
(generator.py line 214). -/
def rowsBelow (refY miny s : ℚ) : ℤ := ⌈(refY - miny) / s⌉ + 2

/-- `rows_above = int(math.ceil((maxy - reference_y) / spacing_m)) + 2`
(generator.py line 215). -/
def rowsAbove (refY maxy s : ℚ) : ℤ := ⌈(maxy - refY) / s⌉ + 2

/-- The candidate line for row index `i` (generator.py lines 220-221):
a horizontal two-point line at `y = reference_y + i * spacing_m`,
padded horizontally by `pad = (maxx - minx) * 2.0` on both sides. -/
def rowLine (b : Bounds) (refY s : ℚ) (i : ℤ) : List Pt :=
  let pad := (b.maxx - b.minx) * 2
  let y := refY + (i : ℚ) * s
  [(b.minx - pad, y), (b.maxx + pad, y)]

/-- `row_lines_with_index` (generator.py lines 218-222): the candidate
lines indexed over `range(-rows_below, rows_above + 1)`. -/
def rowLinesWithIndex (b : Bounds) (refY s : ℚ) : List (ℤ × List Pt) :=
  (pyRange (-(rowsBelow refY b.miny s)) (rowsAbove refY b.maxy s + 1)).map
    (fun i => (i, rowLine b refY s i))

/-- The clipping loop (generator.py lines 224-250).  Row index 0 is
special-cased to the rotated AB line verbatim, bypassing the clipper;
every other candidate is intersected with the rotated area polygon and
the intersection is classified into a list of surviving LineString
pieces, each longer than `SNAP_TOLERANCE` — that external shapely
computation (lines 234-250) is abstracted as `clip`; each surviving
piece is recorded under the candidate's row index. -/
def clipRows (abRot : List Pt) (clip : List Pt → List (List Pt))
    (cands : List (ℤ × List Pt)) : List (ℤ × List Pt) :=
  cands.flatMap (fun p =>
    if p.1 = 0 then [((0 : ℤ), abRot)]
    else (clip p.2).map (fun seg => (p.1, seg)))

/-- `clipped_rows.sort(key=lambda x: x[0])` (generator.py line 253):
Python's stable sort by row index, embedded as the stable `mergeSort`. -/
def sortByIndex (l : List (ℤ × List Pt)) : List (ℤ × List Pt) :=
  l.mergeSort (fun p q => p.1 ≤ q.1)

/-- The orientation step (generator.py lines 303-311): the segment's
coordinate sequence is reversed when
`(bx > ax and seg_start_x > seg_end_x) or (bx < ax and seg_start_x < seg_end_x)`,
where `ax`, `bx` are the x-coordinates of the *unrotated* metric AB
endpoints (`ab_m.coords`, lines 191-192) and the segment coordinates
live in the rotated (aligned) frame. -/
def orientSeg (ax bx : ℚ) (coords : List Pt) : List Pt :=
  if (bx > ax ∧ (headPt coords).1 > (lastPt coords).1) ∨
     (bx < ax ∧ (headPt coords).1 < (lastPt coords).1)
  then coords.reverse else coords

/-- Squared Euclidean distance.  The source compares true Euclidean
distances (`Point.distance`, lines 345-346); every comparison of
distances is equivalent to the same comparison of squared distances. -/
def distSq (p q : Pt) : ℚ := (p.1 - q.1) ^ 2 + (p.2 - q.2) ^ 2

/-- Destination endpoint selection (generator.py lines 348-353).
`destSideA` embeds the test `dest_side.upper() == "A"`; the result is
`(dest_pt_rot, use_start)`: for side A, `p1` exactly when
`dist1_to_a < dist2_to_a` (so `p2` on ties), for the other side `p1`
exactly when `dist1_to_a > dist2_to_a` (so `p2` on ties). -/
def destChoice (destSideA : Bool) (p1 p2 aRot : Pt) : Pt × Bool :=
  let d1 := distSq p1 aRot
  let d2 := distSq p2 aRot
  if destSideA then
    (if d1 < d2 then (p1, true) else (p2, false))
  else
    (if d1 > d2 then (p1, true) else (p2, false))

/-- An output GeoJSON feature (generator.py lines 326-339, 366-379,
410-423, 448-461).  `coords` is the geometry's coordinate sequence
(a single-element list for a Point geometry); the property bag is
flattened into optional fields, `none` meaning the property is absent
for that feature kind. -/
structure Feature where
  id : String
  ptype : String
  createDate : String
  updateDate : String
  version : ℕ
  direction : Option String
  speedLimit : Option String
  enabled : Option Bool
  name : Option String
  groupMpath : Option String
  groupId : Option String
  coords : List Pt
  deriving DecidableEq

/-- A NetworkPath feature (generator.py lines 326-339; also used for
turn attachments, lines 410-423 and 448-461). -/
def mkPathFeature (id ts : String) (coords : List Pt) : Feature :=
  ⟨id, "NetworkPath", ts, ts, 1, some "two_way", some "1.2", some true,
    none, none, none, coords⟩

/-- A NetworkDestination feature (generator.py lines 366-379). -/
def mkDestFeature (id ts label : String) (p : Pt) : Feature :=
  ⟨id, "NetworkDestination", ts, ts, 1, none, none, none,
    some label, some "", some "", [p]⟩

/-- A parsed shapely geometry, as classified by `prepare_turn_template`
(generator.py lines 276-284).  `other` covers geometry kinds without
simple coordinates, for which the source falls back to the centroid;
the constructor carries that centroid. -/
inductive Geom where
  | point (p : Pt)
  | lineString (coords : List Pt)
  | polygon (exterior : List Pt) (holes : List (List Pt))
  | other (centroid : Pt)
  deriving DecidableEq

/-- Map a planar point transformation over a geometry's coordinates
(shapely `transform`, as used by `_to_utm` on the template and its
anchor, generator.py lines 287-288). -/
def mapGeom (f : Pt → Pt) : Geom → Geom
  | .point p => .point (f p)
  | .lineString cs => .lineString (cs.map f)
  | .polygon e hs => .polygon (e.map f) (hs.map (List.map f))
  | .other c => .other (f c)

/-- The shape of the `turn_geojson` argument as dispatched by
`prepare_turn_template` (generator.py lines 264-273).  `null` is a
falsy value (`None` or `{}`, line 265); for the other constructors an
`Option Geom` of `none` models a feature whose geometry is missing or
cannot be parsed by `shape` (a Python exception). -/
inductive TurnInput where
  | null
  | featureCollection (features : List (Option Geom))
  | feature (geometry : Option Geom)
  | bare (g : Option Geom)
  deriving DecidableEq

/-- The anchor of a turn template (generator.py lines 276-284): the
point itself for a Point, the first coordinate for a LineString or a
Polygon exterior (Python raises `IndexError` when that coordinate
sequence is empty), and the centroid for any other geometry kind. -/
def templateAnchor : Geom → Except String Pt
  | .point p => .ok p
  | .lineString cs =>
      match cs with
      | [] => .error "IndexError: coords"
      | q :: _ => .ok q
  | .polygon ext _ =>
      match ext with
      | [] => .error "IndexError: coords"
      | q :: _ => .ok q
  | .other c => .ok c

/-- `prepare_turn_template` (generator.py lines 264-289).  A falsy
input returns `(None, None)` (modelled `ok none`); otherwise the
geometry is extracted (`turn_geojson["features"][0]["geometry"]` for a
FeatureCollection — Python raises `IndexError` when `features` is
empty — or `turn_geojson["geometry"]` for a Feature, or the bare
geometry), the anchor is determined, and both are projected to the
metric CRS by `tutm` (embedding `_to_utm`).  Any raised exception
propagates out of `generate_rows_geojson` as an `Except.error`. -/
def prepareTurnTemplate (tutm : Pt → Pt) : TurnInput → Except String (Option (Geom × Pt))
  | .null => .ok none
  | .featureCollection feats =>
      match feats with
      | [] => .error "IndexError: features"
      | g? :: _ =>
          match g? with
          | none => .error "shape: no geometry"
          | some g => (templateAnchor g).map (fun anchor => some (mapGeom tutm g, tutm anchor))
  | .feature g? =>
      match g? with
      | none => .error "shape: no geometry"
      | some g => (templateAnchor g).map (fun anchor => some (mapGeom tutm g, tutm anchor))
  | .bare g? =>
      match g? with
      | none => .error "shape: no geometry"
      | some g => (templateAnchor g).map (fun anchor => some (mapGeom tutm g, tutm anchor))

/-- Everything the loop body of generator.py lines 302-462 computes for
one clipped row, before features are materialized. -/
structure RowOut where
  index : ℤ
  pathCoords : List Pt
  label : String
  destCoord : Pt
  turnA : Option (List Pt)
  turnB : Option (List Pt)
  deriving DecidableEq

/-- The per-row processing of generator.py lines 302-462 for one
clipped row `e = (row_index, seg)`:

* orientation (lines 303-311) via `orientSeg` with the unrotated
  metric `ax`, `bx`;
* label (lines 313-319);
* transform back (lines 321-323): unrotate by `+θ` (cos/sin `(c, s)`,
  origin `origin`) then project to WGS84 via the abstract `futm`
  (embedding `_from_utm`);
* destination (lines 342-363): `use_start` from `destChoice`, and the
  destination coordinate taken verbatim from the transformed segment's
  first or last coordinate (line 362) — the independently transformed
  `dest_wgs_temp` of lines 357-358 is discarded by the source;
* turn attachment (lines 388-462): a turn is emitted at the A end iff
  `turn_side_a.upper() == "A"` (embedded `turnSideA`) and a template is
  available (`tmplForA`, after the fallback of lines 390-391), at the
  endpoint nearest A (line 395), and symmetrically at the B end; the
  affine attachment plus WGS84 projection (lines 402-409, 440-447,
  involving `cos`/`sin` of the row angle) is abstracted as
  `attachA` / `attachB` applied to the template and the unrotated
  endpoint, since no claim depends on the attached shape. -/
def processRow (ax bx : ℚ) (aRot : Pt) (c s : ℚ) (origin : Pt) (futm : Pt → Pt)
    (startLetter : Char) (startNum : ℤ) (zeroPad dualZone keepStartLetter : Bool)
    (destSideA turnSideA turnSideB : Bool)
    (tmplForA tmplForB : Option (Geom × Pt))
    (attachA attachB : Geom × Pt → Pt → List Pt)
    (e : ℤ × List Pt) : RowOut :=
  let seg := orientSeg ax bx e.2
  let label := rowLabel startLetter startNum zeroPad dualZone keepStartLetter e.1
  let segWgs := (seg.map (rotPos c s origin)).map futm
  let p1 := headPt seg
  let p2 := lastPt seg
  let choice := destChoice destSideA p1 p2 aRot
  let destCoord := if choice.2 then headPt segWgs else lastPt segWgs
  let turnA :=
    if turnSideA then
      match tmplForA with
      | some t => some (attachA t (rotPos c s origin (destChoice true p1 p2 aRot).1))
      | none => none
    else none
  let turnB :=
    if turnSideB then
      match tmplForB with
      | some t => some (attachB t (rotPos c s origin (destChoice false p1 p2 aRot).1))
      | none => none
    else none
  ⟨e.1, segWgs, label, destCoord, turnA, turnB⟩

/-- Materialize the output features from the processed rows
(generator.py lines 326-340, 366-380, 410-424, 448-462): for each row,
a NetworkPath for the row geometry is appended to `features`, then the
turn attachments (A end first), while the NetworkDestination is
appended to `dest_features`.  Fresh identifiers are drawn from the
`uuid.uuid4()` stream `ids` in source call order: row path (line 328),
destination (line 368), A turn (line 412), B turn (line 450). -/
def assembleRows (ts : String) (ids : ℕ → String) : ℕ → List RowOut → List Feature × List Feature
  | _, [] => ([], [])
  | k, r :: rs =>
      let pf := mkPathFeature (ids k) ts r.pathCoords
      let df := mkDestFeature (ids (k + 1)) ts r.label r.destCoord
      let ta := (r.turnA.map (fun tc => mkPathFeature (ids (k + 2)) ts tc)).toList
      let tb := (r.turnB.map (fun tc => mkPathFeature (ids (k + 2 + ta.length)) ts tc)).toList
      let rest := assembleRows ts ids (k + 2 + ta.length + tb.length) rs
      (pf :: (ta ++ tb ++ rest.1), df :: rest.2)

/-- `reference_y` (generator.py lines 205-207): the average of the
first and last y-coordinates of the rotated AB line. -/
def coreRefY (abRot : List Pt) : ℚ := ((headPt abRot).2 + (lastPt abRot).2) / 2

/-- The index-sorted clipped rows of generator.py lines 218-253, for a
rotated AB line `abRot`, rotated-area bounds `bnds`, spacing and the
abstract clipper `clip`. -/
def coreClipped (abRot : List Pt) (bnds : Bounds) (spacing : ℚ)
    (clip : List Pt → List (List Pt)) : List (ℤ × List Pt) :=
  sortByIndex (clipRows abRot clip (rowLinesWithIndex bnds (coreRefY abRot) spacing))

/-- The template fallback of generator.py lines 390-391 and 428-429:
one end reuses the other end's template when its own is absent. -/
def tmplFallback (own opposite : Option (Geom × Pt)) : Option (Geom × Pt) :=
  match own with
  | some t => some t
  | none => opposite

/-- The processed rows of the whole pipeline: the loop of generator.py
lines 302-462 mapped over the index-sorted clipped rows.  `abM` is the
AB line in the metric CRS (`ab_m`), `(c, s)` the cosine/sine pair of
its direction angle, and the rotation origin is `A = ab_m.coords[0]`
(lines 191, 199). -/
def coreRows (abM : List Pt) (bnds : Bounds)
    (clip : List Pt → List (List Pt)) (c s : ℚ) (futm : Pt → Pt)
    (spacing : ℚ) (startLetter : Char) (startNum : ℤ)
    (zeroPad dualZone keepStartLetter : Bool)
    (destSideA turnSideA turnSideB : Bool)
    (tmplA tmplB : Option (Geom × Pt))
    (attachA attachB : Geom × Pt → Pt → List Pt) : List RowOut :=
  let a := headPt abM
  let b := lastPt abM
  let abRot := abM.map (rotNeg c s a)
  (coreClipped abRot bnds spacing clip).map
    (processRow a.1 b.1 (headPt abRot) c s a futm startLetter startNum
      zeroPad dualZone keepStartLetter destSideA turnSideA turnSideB
      (tmplFallback tmplA tmplB) (tmplFallback tmplB tmplA) attachA attachB)

/-- The output feature list once both turn templates have been
prepared: all NetworkPath features (`features`) followed by all
NetworkDestination features (`dest_features`), generator.py lines
464-467.  `attachTurnsBothEnds` embeds the parameter of line 152,
which the source accepts and never reads. -/
def generateCore (abM : List Pt) (bnds : Bounds)
    (clip : List Pt → List (List Pt)) (c s : ℚ) (futm : Pt → Pt)
    (spacing : ℚ) (startLetter : Char) (startNum : ℤ)
    (zeroPad dualZone keepStartLetter : Bool)
    (destSideA : Bool) (attachTurnsBothEnds : Bool)
    (turnSideA turnSideB : Bool)
    (tmplA tmplB : Option (Geom × Pt))
    (attachA attachB : Geom × Pt → Pt → List Pt)
    (ts : String) (ids : ℕ → String) : List Feature :=
  let rows := coreRows abM bnds clip c s futm spacing startLetter startNum
    zeroPad dualZone keepStartLetter destSideA turnSideA turnSideB
    tmplA tmplB attachA attachB
  let asm := assembleRows ts ids 0 rows
  asm.1 ++ asm.2

/-- `generate_rows_geojson` (generator.py lines 141-468), from the
metric-frame AB line onward.  The two turn templates are prepared first
(lines 292-295); a Python exception raised there escapes the function,
producing no output (`Except.error`).  Otherwise the pipeline runs to
completion and returns the feature collection. -/
def generateRowsGeojson (abM : List Pt) (bnds : Bounds)
    (clip : List Pt → List (List Pt)) (c s : ℚ) (futm : Pt → Pt)
    (spacing : ℚ) (startLetter : Char) (startNum : ℤ)
    (zeroPad dualZone : Bool) (destSideA : Bool)
    (customTurn : TurnInput) (keepStartLetter : Bool)
    (attachTurnsBothEnds : Bool) (secondaryTurn : TurnInput)
    (turnSideA turnSideB : Bool) (tutm : Pt → Pt)
    (attachA attachB : Geom × Pt → Pt → List Pt)
    (ts : String) (ids : ℕ → String) : Except String (List Feature) :=
  match prepareTurnTemplate tutm customTurn with
  | .error e => .error e
  | .ok tmplA =>
      match prepareTurnTemplate tutm secondaryTurn with
      | .error e => .error e
      | .ok tmplB =>
          .ok (generateCore abM bnds clip c s futm spacing startLetter startNum
            zeroPad dualZone keepStartLetter destSideA attachTurnsBothEnds
            turnSideA turnSideB tmplA tmplB attachA attachB ts ids)

/-- A feature with its generated identifier blanked out. -/
def eraseId : Feature → Feature
  | ⟨_, pt, cd, ud, v, dir, sp, en, nm, gm, gi, co⟩ =>
      ⟨"", pt, cd, ud, v, dir, sp, en, nm, gm, gi, co⟩

/-- A pipeline result with every feature identifier blanked out. -/
def eraseIds (r : Except String (List Feature)) : Except String (List Feature) :=
  r.map (List.map eraseId)

/-! ### Shared lemmas -/

theorem mem_pyRange (lo hi i : ℤ) : i ∈ pyRange lo hi ↔ lo ≤ i ∧ i < hi := by
  unfold pyRange
  constructor
  · intro h
    obtain ⟨k, hk, rfl⟩ := List.mem_map.mp h
    have := List.mem_range.mp hk
    omega
  · intro h
    exact List.mem_map.mpr ⟨(i - lo).toNat, List.mem_range.mpr (by omega), by omega⟩

theorem mem_optMap_toList {α β : Type} {o : Option α} {g : α → β} {b : β}
    (h : b ∈ (o.map g).toList) : ∃ x, o = some x ∧ b = g x := by
  cases o with
  | none => simp at h
  | some x =>
      simp only [Option.map_some', Option.toList_some, List.mem_singleton] at h
      exact ⟨x, rfl, h⟩

theorem assembleRows_fst_ptype (ts : String) (ids : ℕ → String) :
    ∀ (k : ℕ) (rows : List RowOut), ∀ f ∈ (assembleRows ts ids k rows).1,
      f.ptype = "NetworkPath" := by
  intro k rows
  induction rows generalizing k with
  | nil => simp [assembleRows]
  | cons r rs ih =>
      intro f hf
      simp only [assembleRows] at hf
      rcases List.mem_cons.mp hf with rfl | hf
      · rfl
      rcases List.mem_append.mp hf with hf | hf
      · rcases List.mem_append.mp hf with hf | hf
        · obtain ⟨x, _, rfl⟩ := mem_optMap_toList hf
          rfl
        · obtain ⟨x, _, rfl⟩ := mem_optMap_toList hf
          rfl
      · exact ih _ f hf

theorem assembleRows_snd_ptype (ts : String) (ids : ℕ → String) :
    ∀ (k : ℕ) (rows : List RowOut), ∀ f ∈ (assembleRows ts ids k rows).2,
      f.ptype = "NetworkDestination" := by
  intro k rows
  induction rows generalizing k with
  | nil => simp [assembleRows]
  | cons r rs ih =>
      intro f hf
      simp only [assembleRows] at hf
      rcases List.mem_cons.mp hf with rfl | hf
      · rfl
      · exact ih _ f hf

theorem assembleRows_fst_coords (ts : String) (ids : ℕ → String) :
    ∀ (k : ℕ) (rows : List RowOut),
      (assembleRows ts ids k rows).1.map Feature.coords
        = (rows.map (fun r => r.pathCoords :: (r.turnA.toList ++ r.turnB.toList))).flatten := by
  intro k rows
  induction rows generalizing k with
  | nil => simp [assembleRows]
  | cons r rs ih =>
      rcases r with ⟨i, pc, lb, dc, ta?, tb?⟩
      cases ta? <;> cases tb? <;>
        simp [assembleRows, mkPathFeature, ih]

theorem assembleRows_snd_coords (ts : String) (ids : ℕ → String) :
    ∀ (k : ℕ) (rows : List RowOut),
      (assembleRows ts ids k rows).2.map Feature.coords
        = rows.map (fun r => [r.destCoord]) := by
  intro k rows
  induction rows generalizing k with
  | nil => simp [assembleRows]
  | cons r rs ih =>
      simp [assembleRows, mkDestFeature, ih]

theorem assembleRows_snd_names (ts : String) (ids : ℕ → String) :
    ∀ (k : ℕ) (rows : List RowOut),
      (assembleRows ts ids k rows).2.map Feature.name
        = rows.map (fun r => some r.label) := by
  intro k rows
  induction rows generalizing k with
  | nil => simp [assembleRows]
  | cons r rs ih =>
      simp [assembleRows, mkDestFeature, ih]

theorem assembleRows_erase (ts : String) (ids1 ids2 : ℕ → String) :
    ∀ (k1 k2 : ℕ) (rows : List RowOut),
      (assembleRows ts ids1 k1 rows).1.map eraseId
        = (assembleRows ts ids2 k2 rows).1.map eraseId ∧
      (assembleRows ts ids1 k1 rows).2.map eraseId
        = (assembleRows ts ids2 k2 rows).2.map eraseId := by
  intro k1 k2 rows
  induction rows generalizing k1 k2 with
  | nil => simp [assembleRows]
  | cons r rs ih =>
      rcases r with ⟨i, pc, lb, dc, ta?, tb?⟩
      cases ta? <;> cases tb? <;>
        · simp only [assembleRows, Option.map_none', Option.map_some', Option.toList_none,
            Option.toList_some, List.map_cons, List.map_append, List.nil_append,
            List.cons_append, List.length_nil, List.length_cons, List.map_nil, eraseId,
            mkPathFeature, mkDestFeature, List.cons.injEq, List.append_cancel_left_eq,
            true_and, and_true, Feature.mk.injEq]
          refine ⟨?_, ?_⟩ <;> first
            | exact (ih _ _).1
            | exact (ih _ _).2

theorem assembleRows_len_noturn (ts : String) (ids : ℕ → String) :
    ∀ (k : ℕ) (rows : List RowOut),
      (∀ r ∈ rows, r.turnA = none ∧ r.turnB = none) →
      (assembleRows ts ids k rows).1.length = rows.length ∧
      (assembleRows ts ids k rows).2.length = rows.length := by
  intro k rows
  induction rows generalizing k with
  | nil => simp [assembleRows]
  | cons r rs ih =>
      intro h
      obtain ⟨hA, hB⟩ := h r (List.mem_cons_self r rs)
      have ihr := ih (k + 2) (fun r' hr' => h r' (List.mem_cons_of_mem r hr'))
      simp [assembleRows, hA, hB, ihr.1, ihr.2]

theorem sortByIndex_sorted (l : List (ℤ × List Pt)) :
    List.Sorted (fun p q : ℤ × List Pt => p.1 ≤ q.1) (sortByIndex l) := by
  have h := @List.sorted_mergeSort (ℤ × List Pt) (fun p q => decide (p.1 ≤ q.1))
    (fun a b c hab hbc => by
      simp only [decide_eq_true_eq] at hab hbc ⊢
      exact le_trans hab hbc)
    (fun a b => by
      simp only [Bool.or_eq_true, decide_eq_true_eq]
      exact le_total a.1 b.1) l
  exact h.imp (fun hab => of_decide_eq_true hab)

theorem sortByIndex_perm (l : List (ℤ × List Pt)) : (sortByIndex l).Perm l :=
  List.mergeSort_perm l _

/-! ### Claim theorems -/

/-- Claim C1: for every valid input with spacing `s > 0`, the generated
row family consists of exactly the indices `i` in
`[-rowsBelow, rowsAbove]` with `rowsBelow = ⌈(refY - miny)/s⌉ + 2` and
`rowsAbove = ⌈(maxy - refY)/s⌉ + 2`; the candidate entering the clipped
row list for `i = 0` is the aligned reference line verbatim, and for
every `i ≠ 0` the candidate is a horizontal line at
`y = refY + i·s` exactly, extending at least twice the bounding-box
width beyond `minx` and `maxx`. -/
theorem row_family_exact (bnds : Bounds) (refY s : ℚ) (hs : 0 < s)
    (abRot : List Pt) (clip : List Pt → List (List Pt)) :
    (∀ i : ℤ, i ∈ (rowLinesWithIndex bnds refY s).map Prod.fst ↔
      -(rowsBelow refY bnds.miny s) ≤ i ∧ i ≤ rowsAbove refY bnds.maxy s) ∧
    (∀ p ∈ rowLinesWithIndex bnds refY s, p.1 ≠ 0 →
      (∀ q ∈ p.2, q.2 = refY + (p.1 : ℚ) * s) ∧
      bnds.minx - (headPt p.2).1 ≥ 2 * (bnds.maxx - bnds.minx) ∧
      (lastPt p.2).1 - bnds.maxx ≥ 2 * (bnds.maxx - bnds.minx)) ∧
    (∀ q ∈ clipRows abRot clip (rowLinesWithIndex bnds refY s), q.1 = 0 → q.2 = abRot) ∧
    (-(rowsBelow refY bnds.miny s) ≤ 0 → 0 ≤ rowsAbove refY bnds.maxy s →
      ((0 : ℤ), abRot) ∈ clipRows abRot clip (rowLinesWithIndex bnds refY s)) := by
  refine ⟨?_, ?_, ?_, ?_⟩
  · intro i
    have hmap : (rowLinesWithIndex bnds refY s).map Prod.fst
        = pyRange (-(rowsBelow refY bnds.miny s)) (rowsAbove refY bnds.maxy s + 1) := by
      simp [rowLinesWithIndex, List.map_map, Function.comp_def]
    rw [hmap, mem_pyRange]
    omega
  · intro p hp hp0
    simp only [rowLinesWithIndex, List.mem_map] at hp
    obtain ⟨i, _, rfl⟩ := hp
    refine ⟨?_, ?_, ?_⟩
    · intro q hq
      simp only [rowLine, List.mem_cons, List.not_mem_nil, or_false] at hq
      rcases hq with rfl | rfl <;> rfl
    · have hh : headPt (rowLine bnds refY s i)
          = (bnds.minx - (bnds.maxx - bnds.minx) * 2, refY + (i : ℚ) * s) := rfl
      rw [hh]
      exact ge_of_eq (by ring)
    · have hl : lastPt (rowLine bnds refY s i)
          = (bnds.maxx + (bnds.maxx - bnds.minx) * 2, refY + (i : ℚ) * s) := rfl
      rw [hl]
      exact ge_of_eq (by ring)
  · intro q hq hq0
    simp only [clipRows, List.mem_flatMap] at hq
    obtain ⟨p, _, hq⟩ := hq
    split_ifs at hq with h
    · simp only [List.mem_singleton] at hq
      rw [hq]
    · simp only [List.mem_map] at hq
      obtain ⟨seg, _, rfl⟩ := hq
      exact absurd hq0 h
  · intro h1 h2
    simp only [clipRows, List.mem_flatMap]
    refine ⟨((0 : ℤ), rowLine bnds refY s 0), ?_, ?_⟩
    · simp only [rowLinesWithIndex, List.mem_map]
      exact ⟨0, (mem_pyRange _ _ _).mpr ⟨by omega, by omega⟩, rfl⟩
    · simp

/-- Witness for C1: with bounds `(0, 1, 10, 7)`, `refY = 5` and spacing
`2`, row 0 carries the rotated AB line verbatim into the clipped rows. -/
theorem row_family_exact_witness :
    (0 : ℚ) < 2 ∧
    ((0 : ℤ), [(((0 : ℚ), (5 : ℚ))), ((10 : ℚ), (5 : ℚ))]) ∈
      clipRows [(((0 : ℚ), (5 : ℚ))), ((10 : ℚ), (5 : ℚ))] (fun _ => [])
        (rowLinesWithIndex ⟨0, 1, 10, 7⟩ 5 2) :=
  ⟨by norm_num,
   (row_family_exact ⟨0, 1, 10, 7⟩ 5 2 (by norm_num)
      [(((0 : ℚ), (5 : ℚ))), ((10 : ℚ), (5 : ℚ))] (fun _ => [])).2.2.2
     (by norm_num [rowsBelow]) (by norm_num [rowsAbove])⟩

/-- Claim C2: for every row segment, the destination coordinate is
exactly (as a term, not within tolerance) the first or the last
coordinate of the segment's output path coordinate sequence — taken
from the oriented, transformed-back segment itself (generator.py lines
361-362), never recomputed independently. -/
theorem dest_coord_from_path (ax bx : ℚ) (aRot : Pt) (c s : ℚ) (origin : Pt)
    (futm : Pt → Pt) (startLetter : Char) (startNum : ℤ)
    (zeroPad dualZone keepStartLetter destSideA turnSideA turnSideB : Bool)
    (tmplForA tmplForB : Option (Geom × Pt))
    (attachA attachB : Geom × Pt → Pt → List Pt)
    (e : ℤ × List Pt) (he : e.2 ≠ []) :
    (processRow ax bx aRot c s origin futm startLetter startNum zeroPad dualZone
        keepStartLetter destSideA turnSideA turnSideB tmplForA tmplForB attachA attachB
        e).pathCoords ≠ [] ∧
    ((processRow ax bx aRot c s origin futm startLetter startNum zeroPad dualZone
        keepStartLetter destSideA turnSideA turnSideB tmplForA tmplForB attachA attachB
        e).destCoord =
      headPt (processRow ax bx aRot c s origin futm startLetter startNum zeroPad dualZone
        keepStartLetter destSideA turnSideA turnSideB tmplForA tmplForB attachA attachB
        e).pathCoords ∨
     (processRow ax bx aRot c s origin futm startLetter startNum zeroPad dualZone
        keepStartLetter destSideA turnSideA turnSideB tmplForA tmplForB attachA attachB
        e).destCoord =
      lastPt (processRow ax bx aRot c s origin futm startLetter startNum zeroPad dualZone
        keepStartLetter destSideA turnSideA turnSideB tmplForA tmplForB attachA attachB
        e).pathCoords) := by
  constructor
  · simp only [processRow, ne_eq, List.map_eq_nil_iff]
    unfold orientSeg
    split_ifs
    · simpa using he
    · exact he
  · simp only [processRow]
    split_ifs
    · exact Or.inl rfl
    · exact Or.inr rfl

/-- Witness for C2: a concrete two-point segment, identity transforms. -/
theorem dest_coord_from_path_witness :
    (((0 : ℤ), [(((1 : ℚ), (5 : ℚ))), ((2 : ℚ), (5 : ℚ))]) : ℤ × List Pt).2 ≠ [] ∧
    ((processRow 0 10 ((0 : ℚ), (0 : ℚ)) 1 0 ((0 : ℚ), (0 : ℚ)) id 'F' 1 true false
        true true false false none none (fun _ _ => []) (fun _ _ => [])
        ((0 : ℤ), [(((1 : ℚ), (5 : ℚ))), ((2 : ℚ), (5 : ℚ))])).destCoord =
      headPt (processRow 0 10 ((0 : ℚ), (0 : ℚ)) 1 0 ((0 : ℚ), (0 : ℚ)) id 'F' 1 true false
        true true false false none none (fun _ _ => []) (fun _ _ => [])
        ((0 : ℤ), [(((1 : ℚ), (5 : ℚ))), ((2 : ℚ), (5 : ℚ))])).pathCoords ∨
     (processRow 0 10 ((0 : ℚ), (0 : ℚ)) 1 0 ((0 : ℚ), (0 : ℚ)) id 'F' 1 true false
        true true false false none none (fun _ _ => []) (fun _ _ => [])
        ((0 : ℤ), [(((1 : ℚ), (5 : ℚ))), ((2 : ℚ), (5 : ℚ))])).destCoord =
      lastPt (processRow 0 10 ((0 : ℚ), (0 : ℚ)) 1 0 ((0 : ℚ), (0 : ℚ)) id 'F' 1 true false
        true true false false none none (fun _ _ => []) (fun _ _ => [])
        ((0 : ℤ), [(((1 : ℚ), (5 : ℚ))), ((2 : ℚ), (5 : ℚ))])).pathCoords) :=
  ⟨by simp,
   (dest_coord_from_path 0 10 ((0 : ℚ), (0 : ℚ)) 1 0 ((0 : ℚ), (0 : ℚ)) id 'F' 1 true false
      true true false false none none (fun _ _ => []) (fun _ _ => [])
      ((0 : ℤ), [(((1 : ℚ), (5 : ℚ))), ((2 : ℚ), (5 : ℚ))]) (by simp)).2⟩

/-- Claim C3 (bug evaluation): the source compares the sign of
`bx - ax` in the *unaligned* metric frame (generator.py line 309, with
`ax`, `bx` read from `ab_m` at lines 191-192) against the segment's
x-direction in the *aligned* frame.  Concretely, for the reference line
`A = (10, 0)`, `B = (0, 0)` — B due west of A, direction angle 180°, so
`(c, s) = (-1, 0)` — the aligned `B.x - A.x` is `+10 > 0`, agreeing
with the direction of the aligned segment `[(1, 5), (2, 5)]`; the claim
therefore requires no reversal, yet `orientSeg` (the code) reverses the
segment, orienting it against the aligned reference direction. -/
theorem orient_unaligned_frame_bug :
    atan2CS ((10 : ℚ), (0 : ℚ)) ((0 : ℚ), (0 : ℚ)) (-1) 0 ∧
    (rotNeg (-1) 0 ((10 : ℚ), (0 : ℚ)) ((0 : ℚ), (0 : ℚ))).1 - (10 : ℚ) > 0 ∧
    (headPt [(((1 : ℚ), (5 : ℚ))), ((2 : ℚ), (5 : ℚ))]).1 <
      (lastPt [(((1 : ℚ), (5 : ℚ))), ((2 : ℚ), (5 : ℚ))]).1 ∧
    orientSeg 10 0 [(((1 : ℚ), (5 : ℚ))), ((2 : ℚ), (5 : ℚ))]
      = [(((2 : ℚ), (5 : ℚ))), ((1 : ℚ), (5 : ℚ))] := by
  refine ⟨⟨by norm_num, 10, by norm_num, by norm_num, by norm_num⟩, ?_, ?_, ?_⟩
  · norm_num [rotNeg]
  · norm_num [headPt, lastPt]
  · norm_num [orientSeg, headPt, lastPt]

/-- Claim C4 (counterexample): with the two endpoints `(-3, 4)` and
`(3, 4)` equidistant from `A = (0, 0)` and `dest_side == "A"`, the
source chooses the *second* endpoint, not the first as claimed. -/
theorem dest_tie_counterexample :
    distSq ((-3 : ℚ), (4 : ℚ)) ((0 : ℚ), (0 : ℚ))
      = distSq ((3 : ℚ), (4 : ℚ)) ((0 : ℚ), (0 : ℚ)) ∧
    (destChoice true ((-3 : ℚ), (4 : ℚ)) ((3 : ℚ), (4 : ℚ)) ((0 : ℚ), (0 : ℚ))).1
      ≠ ((-3 : ℚ), (4 : ℚ)) ∧
    (destChoice true ((-3 : ℚ), (4 : ℚ)) ((3 : ℚ), (4 : ℚ)) ((0 : ℚ), (0 : ℚ))).1
      = ((3 : ℚ), (4 : ℚ)) := by
  refine ⟨by norm_num [distSq], ?_, ?_⟩ <;> norm_num [destChoice, distSq]

/-- Claim C4 (amended): for `dest_side == "A"` the chosen destination
endpoint is the strictly closer one when the distances differ, and the
*second* (last) endpoint of the oriented segment on ties; for
`dest_side == "B"` the strictly farther one, again the second endpoint
on ties. -/
theorem dest_selection (p1 p2 aRot : Pt) :
    (distSq p1 aRot < distSq p2 aRot → (destChoice true p1 p2 aRot).1 = p1) ∧
    (distSq p2 aRot ≤ distSq p1 aRot → (destChoice true p1 p2 aRot).1 = p2) ∧
    (distSq p2 aRot < distSq p1 aRot → (destChoice false p1 p2 aRot).1 = p1) ∧
    (distSq p1 aRot ≤ distSq p2 aRot → (destChoice false p1 p2 aRot).1 = p2) := by
  have hA : destChoice true p1 p2 aRot
      = (if distSq p1 aRot < distSq p2 aRot then (p1, true) else (p2, false)) := rfl
  have hB : destChoice false p1 p2 aRot
      = (if distSq p1 aRot > distSq p2 aRot then (p1, true) else (p2, false)) := rfl
  refine ⟨fun h => ?_, fun h => ?_, fun h => ?_, fun h => ?_⟩
  · rw [hA, if_pos h]
  · rw [hA, if_neg (not_lt.mpr h)]
  · rw [hB, if_pos h]
  · rw [hB, if_neg (not_lt.mpr h)]

/-- Witness for C4 (amended): on the equidistant pair the second
endpoint is selected for both sides. -/
theorem dest_selection_witness :
    (destChoice true ((-3 : ℚ), (4 : ℚ)) ((3 : ℚ), (4 : ℚ)) ((0 : ℚ), (0 : ℚ))).1
      = ((3 : ℚ), (4 : ℚ)) ∧
    (destChoice false ((-3 : ℚ), (4 : ℚ)) ((3 : ℚ), (4 : ℚ)) ((0 : ℚ), (0 : ℚ))).1
      = ((3 : ℚ), (4 : ℚ)) :=
  ⟨(dest_selection ((-3 : ℚ), (4 : ℚ)) ((3 : ℚ), (4 : ℚ)) ((0 : ℚ), (0 : ℚ))).2.1
      (by norm_num [distSq]),
   (dest_selection ((-3 : ℚ), (4 : ℚ)) ((3 : ℚ), (4 : ℚ)) ((0 : ℚ), (0 : ℚ))).2.2.2
      (by norm_num [distSq])⟩

/-- Claim C9: the `attach_turns_both_ends` parameter (generator.py
line 152) is accepted and never read; two invocations differing only in
its value (all other inputs, the timestamp and the uuid stream fixed)
produce identical outputs.  Turn emission is governed solely by
`turn_side_a == "A"`, `turn_side_b == "B"` and template availability
(lines 389-393 and 427-431), which is visible in `processRow`. -/
theorem attach_flag_no_effect (abM : List Pt) (bnds : Bounds)
    (clip : List Pt → List (List Pt)) (c s : ℚ) (futm : Pt → Pt)
    (spacing : ℚ) (startLetter : Char) (startNum : ℤ)
    (zeroPad dualZone : Bool) (destSideA : Bool)
    (customTurn : TurnInput) (keepStartLetter : Bool)
    (b1 b2 : Bool) (secondaryTurn : TurnInput)
    (turnSideA turnSideB : Bool) (tutm : Pt → Pt)
    (attachA attachB : Geom × Pt → Pt → List Pt)
    (ts : String) (ids : ℕ → String) :
    generateRowsGeojson abM bnds clip c s futm spacing startLetter startNum
      zeroPad dualZone destSideA customTurn keepStartLetter b1 secondaryTurn
      turnSideA turnSideB tutm attachA attachB ts ids
    = generateRowsGeojson abM bnds clip c s futm spacing startLetter startNum
      zeroPad dualZone destSideA customTurn keepStartLetter b2 secondaryTurn
      turnSideA turnSideB tutm attachA attachB ts ids := rfl

/-- Claim C7 (amended): with the inputs and the (internally drawn)
timestamp fixed, the output depends additionally only on the
`uuid.uuid4()` draws, and only through the feature `id` fields: erasing
the identifiers, any two invocations with the same timestamp agree,
whatever identifiers uuid4 produced. -/
theorem deterministic_modulo_ids (abM : List Pt) (bnds : Bounds)
    (clip : List Pt → List (List Pt)) (c s : ℚ) (futm : Pt → Pt)
    (spacing : ℚ) (startLetter : Char) (startNum : ℤ)
    (zeroPad dualZone : Bool) (destSideA : Bool)
    (customTurn : TurnInput) (keepStartLetter : Bool)
    (attachBoth : Bool) (secondaryTurn : TurnInput)
    (turnSideA turnSideB : Bool) (tutm : Pt → Pt)
    (attachA attachB : Geom × Pt → Pt → List Pt)
    (ts : String) (ids1 ids2 : ℕ → String) :
    eraseIds (generateRowsGeojson abM bnds clip c s futm spacing startLetter startNum
      zeroPad dualZone destSideA customTurn keepStartLetter attachBoth secondaryTurn
      turnSideA turnSideB tutm attachA attachB ts ids1)
    = eraseIds (generateRowsGeojson abM bnds clip c s futm spacing startLetter startNum
      zeroPad dualZone destSideA customTurn keepStartLetter attachBoth secondaryTurn
      turnSideA turnSideB tutm attachA attachB ts ids2) := by
  unfold generateRowsGeojson
  cases hA : prepareTurnTemplate tutm customTurn with
  | error e => rfl
  | ok tA =>
      cases hB : prepareTurnTemplate tutm secondaryTurn with
      | error e => rfl
      | ok tB =>
          unfold eraseIds generateCore
          simp only [Except.map, List.map_append]
          rw [(assembleRows_erase ts ids1 ids2 0 0 _).1,
            (assembleRows_erase ts ids1 ids2 0 0 _).2]

/-- Claim C8: the output feature collection is the NetworkPath block
followed by the NetworkDestination block; the path block is, row by row
over the index-sorted clipped rows, the row path followed by its turn
attachments (A end before B end); the destination block follows the
same row order. -/
theorem output_order (abM : List Pt) (bnds : Bounds)
    (clip : List Pt → List (List Pt)) (c s : ℚ) (futm : Pt → Pt)
    (spacing : ℚ) (startLetter : Char) (startNum : ℤ)
    (zeroPad dualZone keepStartLetter : Bool) (destSideA : Bool)
    (attachBoth : Bool) (turnSideA turnSideB : Bool)
    (tmplA tmplB : Option (Geom × Pt))
    (attachA attachB : Geom × Pt → Pt → List Pt)
    (ts : String) (ids : ℕ → String) :
    generateCore abM bnds clip c s futm spacing startLetter startNum
        zeroPad dualZone keepStartLetter destSideA attachBoth turnSideA turnSideB
        tmplA tmplB attachA attachB ts ids
      = (assembleRows ts ids 0 (coreRows abM bnds clip c s futm spacing startLetter
          startNum zeroPad dualZone keepStartLetter destSideA turnSideA turnSideB
          tmplA tmplB attachA attachB)).1
        ++ (assembleRows ts ids 0 (coreRows abM bnds clip c s futm spacing startLetter
          startNum zeroPad dualZone keepStartLetter destSideA turnSideA turnSideB
          tmplA tmplB attachA attachB)).2 ∧
    (∀ f ∈ (assembleRows ts ids 0 (coreRows abM bnds clip c s futm spacing startLetter
        startNum zeroPad dualZone keepStartLetter destSideA turnSideA turnSideB
        tmplA tmplB attachA attachB)).1, f.ptype = "NetworkPath") ∧
    (∀ f ∈ (assembleRows ts ids 0 (coreRows abM bnds clip c s futm spacing startLetter
        startNum zeroPad dualZone keepStartLetter destSideA turnSideA turnSideB
        tmplA tmplB attachA attachB)).2, f.ptype = "NetworkDestination") ∧
    (assembleRows ts ids 0 (coreRows abM bnds clip c s futm spacing startLetter
        startNum zeroPad dualZone keepStartLetter destSideA turnSideA turnSideB
        tmplA tmplB attachA attachB)).1.map Feature.coords
      = ((coreRows abM bnds clip c s futm spacing startLetter startNum zeroPad dualZone
          keepStartLetter destSideA turnSideA turnSideB tmplA tmplB attachA
          attachB).map (fun r => r.pathCoords :: (r.turnA.toList ++ r.turnB.toList))).flatten ∧
    (assembleRows ts ids 0 (coreRows abM bnds clip c s futm spacing startLetter
        startNum zeroPad dualZone keepStartLetter destSideA turnSideA turnSideB
        tmplA tmplB attachA attachB)).2.map Feature.coords
      = (coreRows abM bnds clip c s futm spacing startLetter startNum zeroPad dualZone
          keepStartLetter destSideA turnSideA turnSideB tmplA tmplB attachA
          attachB).map (fun r => [r.destCoord]) ∧
    (coreRows abM bnds clip c s futm spacing startLetter startNum zeroPad dualZone
        keepStartLetter destSideA turnSideA turnSideB tmplA tmplB attachA
        attachB).map RowOut.index
      = (coreClipped (abM.map (rotNeg c s (headPt abM))) bnds spacing clip).map Prod.fst ∧
    List.Sorted (fun p q : ℤ × List Pt => p.1 ≤ q.1)
      (coreClipped (abM.map (rotNeg c s (headPt abM))) bnds spacing clip) := by
  refine ⟨rfl, assembleRows_fst_ptype ts ids 0 _, assembleRows_snd_ptype ts ids 0 _,
    assembleRows_fst_coords ts ids 0 _, assembleRows_snd_coords ts ids 0 _, ?_, ?_⟩
  · unfold coreRows
    rw [List.map_map]
    exact List.map_congr_left (fun e _ => rfl)
  · exact sortByIndex_sorted _

/-- Claim C10: each entry of the index-sorted clipped row list — in
particular each piece of a multi-part clip result, which all share one
row index — receives its own NetworkDestination feature, and the
feature's name is a function of the row index and the label
configuration alone, so pieces sharing an index carry identical names
(names are not unique across features). -/
theorem dest_name_per_piece (abM : List Pt) (bnds : Bounds)
    (clip : List Pt → List (List Pt)) (c s : ℚ) (futm : Pt → Pt)
    (spacing : ℚ) (startLetter : Char) (startNum : ℤ)
    (zeroPad dualZone keepStartLetter : Bool) (destSideA : Bool)
    (turnSideA turnSideB : Bool) (tmplA tmplB : Option (Geom × Pt))
    (attachA attachB : Geom × Pt → Pt → List Pt)
    (ts : String) (ids : ℕ → String) :
    (assembleRows ts ids 0 (coreRows abM bnds clip c s futm spacing startLetter
        startNum zeroPad dualZone keepStartLetter destSideA turnSideA turnSideB
        tmplA tmplB attachA attachB)).2.map Feature.name
      = (coreClipped (abM.map (rotNeg c s (headPt abM))) bnds spacing clip).map
          (fun e => some (rowLabel startLetter startNum zeroPad dualZone keepStartLetter e.1)) ∧
    (∀ e1 ∈ coreClipped (abM.map (rotNeg c s (headPt abM))) bnds spacing clip,
     ∀ e2 ∈ coreClipped (abM.map (rotNeg c s (headPt abM))) bnds spacing clip,
      e1.1 = e2.1 →
      rowLabel startLetter startNum zeroPad dualZone keepStartLetter e1.1
        = rowLabel startLetter startNum zeroPad dualZone keepStartLetter e2.1) := by
  constructor
  · rw [assembleRows_snd_names]
    unfold coreRows
    rw [List.map_map]
    exact List.map_congr_left (fun e _ => rfl)
  · intro e1 _ e2 _ h
    rw [h]

/-- Claim C5 (counterexample): with `A = B = (5, 5)` the source does
not abort: `math.atan2(0, 0)` evaluates to `0` in Python (so
`(c, s) = (1, 0)`), the degenerate line is treated as horizontal, and
the pipeline returns a normal FeatureCollection — here containing the
row-0 path and its destination, 2 features.  No
`DegenerateReferenceLine` error exists anywhere in the source. -/
theorem degenerate_ab_output :
    (generateRowsGeojson [(((5 : ℚ), (5 : ℚ))), ((5 : ℚ), (5 : ℚ))] ⟨0, 5, 10, 5⟩
      (fun _ => []) 1 0 id 1 'F' 1 true false true TurnInput.null true false
      TurnInput.null false false id (fun _ _ => []) (fun _ _ => [])
      "T" (fun _ => "u")).toOption.map List.length = some 2 := by
  norm_num [generateRowsGeojson, prepareTurnTemplate, generateCore, coreRows, coreClipped,
    coreRefY, sortByIndex, clipRows, rowLinesWithIndex, rowsBelow, rowsAbove, pyRange,
    rowLine, headPt, lastPt, rotNeg, tmplFallback, Except.toOption]
  simp [List.range_succ, List.mergeSort, assembleRows, processRow]

/-- Claim C5 (amended): when A equals B the source does not raise:
`math.atan2(0, 0)` returns `0` (so the alignment rotation is the
identity, `(c, s) = (1, 0)`), the degenerate line is treated as
horizontal, and — whenever the two turn templates prepare without
error, the only raising step — the pipeline runs to completion and
returns a normal FeatureCollection. -/
theorem degenerate_ab_proceeds (p : Pt) (bnds : Bounds)
    (clip : List Pt → List (List Pt)) (futm : Pt → Pt)
    (spacing : ℚ) (startLetter : Char) (startNum : ℤ)
    (zeroPad dualZone : Bool) (destSideA : Bool)
    (customTurn : TurnInput) (keepStartLetter attachBoth : Bool)
    (secondaryTurn : TurnInput) (turnSideA turnSideB : Bool)
    (tutm : Pt → Pt) (attachA attachB : Geom × Pt → Pt → List Pt)
    (ts : String) (ids : ℕ → String) (tA tB : Option (Geom × Pt))
    (hA : prepareTurnTemplate tutm customTurn = .ok tA)
    (hB : prepareTurnTemplate tutm secondaryTurn = .ok tB) :
    generateRowsGeojson [p, p] bnds clip 1 0 futm spacing startLetter startNum
      zeroPad dualZone destSideA customTurn keepStartLetter attachBoth secondaryTurn
      turnSideA turnSideB tutm attachA attachB ts ids
    = .ok (generateCore [p, p] bnds clip 1 0 futm spacing startLetter startNum
      zeroPad dualZone keepStartLetter destSideA attachBoth turnSideA turnSideB
      tA tB attachA attachB ts ids) := by
  unfold generateRowsGeojson
  rw [hA, hB]

/-- Witness for C5 (amended): the degenerate line `A = B = (5, 5)` with
both turn templates absent. -/
theorem degenerate_ab_proceeds_witness :
    generateRowsGeojson [(((5 : ℚ), (5 : ℚ))), ((5 : ℚ), (5 : ℚ))] ⟨0, 5, 10, 5⟩
      (fun _ => []) 1 0 id 1 'F' 1 true false true TurnInput.null true false
      TurnInput.null false false id (fun _ _ => []) (fun _ _ => []) "T" (fun _ => "u")
    = .ok (generateCore [(((5 : ℚ), (5 : ℚ))), ((5 : ℚ), (5 : ℚ))] ⟨0, 5, 10, 5⟩
      (fun _ => []) 1 0 id 1 'F' 1 true false true true false false false none none
      (fun _ _ => []) (fun _ _ => []) "T" (fun _ => "u")) :=
  degenerate_ab_proceeds ((5 : ℚ), (5 : ℚ)) ⟨0, 5, 10, 5⟩ (fun _ => []) id 1 'F' 1
    true false true TurnInput.null true false TurnInput.null false false id
    (fun _ _ => []) (fun _ _ => []) "T" (fun _ => "u") none none rfl rfl

/-- Claim C6 (counterexample): a supplied turn template that is a
FeatureCollection with no features has no extractable geometry; Python
raises `IndexError` at `turn_geojson["features"][0]`
(generator.py line 269) and the exception escapes
`generate_rows_geojson`: the *whole* generation aborts with no output,
not just the attachment for that end. -/
theorem malformed_template_aborts_all :
    generateRowsGeojson [(((0 : ℚ), (0 : ℚ))), ((10 : ℚ), (0 : ℚ))] ⟨0, 0, 10, 10⟩
      (fun _ => []) 1 0 id 1 'F' 1 true false true
      (TurnInput.featureCollection []) true false TurnInput.null
      true true id (fun _ _ => []) (fun _ _ => []) "T" (fun _ => "u")
    = .error "IndexError: features" := rfl

/-- Claim C6 (amended): only an absent/falsy turn template input is
skipped gracefully: with both template inputs falsy the attachments are
simply omitted and generation completes normally, emitting exactly one
NetworkPath and one NetworkDestination feature per surviving row and no
turn features.  A supplied non-empty malformed template instead raises
and aborts the entire generation (see the counterexample). -/
theorem null_template_skips_attachment (abM : List Pt) (bnds : Bounds)
    (clip : List Pt → List (List Pt)) (c s : ℚ) (futm : Pt → Pt)
    (spacing : ℚ) (startLetter : Char) (startNum : ℤ)
    (zeroPad dualZone : Bool) (destSideA : Bool)
    (keepStartLetter attachBoth : Bool) (turnSideA turnSideB : Bool)
    (tutm : Pt → Pt) (attachA attachB : Geom × Pt → Pt → List Pt)
    (ts : String) (ids : ℕ → String) :
    generateRowsGeojson abM bnds clip c s futm spacing startLetter startNum
      zeroPad dualZone destSideA TurnInput.null keepStartLetter attachBoth
      TurnInput.null turnSideA turnSideB tutm attachA attachB ts ids
    = .ok (generateCore abM bnds clip c s futm spacing startLetter startNum
      zeroPad dualZone keepStartLetter destSideA attachBoth turnSideA turnSideB
      none none attachA attachB ts ids) ∧
    (generateCore abM bnds clip c s futm spacing startLetter startNum
      zeroPad dualZone keepStartLetter destSideA attachBoth turnSideA turnSideB
      none none attachA attachB ts ids).length
    = 2 * (coreClipped (abM.map (rotNeg c s (headPt abM))) bnds spacing clip).length := by
  constructor
  · rfl
  · have hrows : ∀ r ∈ coreRows abM bnds clip c s futm spacing startLetter startNum
        zeroPad dualZone keepStartLetter destSideA turnSideA turnSideB
        none none attachA attachB, r.turnA = none ∧ r.turnB = none := by
      intro r hr
      unfold coreRows at hr
      obtain ⟨e, _, rfl⟩ := List.mem_map.mp hr
      constructor
      · simp [processRow, tmplFallback]
      · simp [processRow, tmplFallback]
    have hlen := assembleRows_len_noturn ts ids 0 _ hrows
    unfold generateCore
    rw [List.length_append, hlen.1, hlen.2]
    unfold coreRows
    rw [List.length_map]
    omega

/-- Claim C7 (counterexample): two invocations with identical inputs
and the same timestamp value but different `uuid.uuid4()` draws produce
different outputs — every feature carries a fresh uuid in its `id`
field, so the timestamp is not the sole non-deterministic input (and
the source offers no parameter to inject the timestamp either:
`datetime.now` is called internally at lines 298-299). -/
theorem uuid_nondeterminism :
    generateRowsGeojson [(((5 : ℚ), (5 : ℚ))), ((5 : ℚ), (5 : ℚ))] ⟨0, 5, 10, 5⟩
      (fun _ => []) 1 0 id 1 'F' 1 true false true TurnInput.null true false
      TurnInput.null false false id (fun _ _ => []) (fun _ _ => []) "T" (fun _ => "a")
    ≠ generateRowsGeojson [(((5 : ℚ), (5 : ℚ))), ((5 : ℚ), (5 : ℚ))] ⟨0, 5, 10, 5⟩
      (fun _ => []) 1 0 id 1 'F' 1 true false true TurnInput.null true false
      TurnInput.null false false id (fun _ _ => []) (fun _ _ => []) "T" (fun _ => "b") := by
  intro h
  have h2 := congrArg (fun r => Except.map (List.map Feature.id) r) h
  norm_num [generateRowsGeojson, prepareTurnTemplate, generateCore, coreRows, coreClipped,
    coreRefY, sortByIndex, clipRows, rowLinesWithIndex, rowsBelow, rowsAbove, pyRange,
    rowLine, headPt, lastPt, rotNeg, tmplFallback] at h2
  simp [List.range_succ, List.mergeSort, assembleRows, processRow, mkPathFeature,
    mkDestFeature, Except.map] at h2

/-- Witness for C8: the ordering theorem applied at a concrete input. -/
theorem output_order_witness :
    generateCore [(((0 : ℚ), (5 : ℚ))), ((10 : ℚ), (5 : ℚ))] ⟨0, 5, 10, 5⟩ (fun _ => [])
        1 0 id 1 'F' 1 true false true true false false false none none
        (fun _ _ => []) (fun _ _ => []) "T" (fun _ => "u")
      = (assembleRows "T" (fun _ => "u") 0
          (coreRows [(((0 : ℚ), (5 : ℚ))), ((10 : ℚ), (5 : ℚ))] ⟨0, 5, 10, 5⟩ (fun _ => [])
            1 0 id 1 'F' 1 true false true true false false none none
            (fun _ _ => []) (fun _ _ => []))).1
        ++ (assembleRows "T" (fun _ => "u") 0
          (coreRows [(((0 : ℚ), (5 : ℚ))), ((10 : ℚ), (5 : ℚ))] ⟨0, 5, 10, 5⟩ (fun _ => [])
            1 0 id 1 'F' 1 true false true true false false none none
            (fun _ _ => []) (fun _ _ => []))).2 ∧
    List.Sorted (fun p q : ℤ × List Pt => p.1 ≤ q.1)
      (coreClipped ([(((0 : ℚ), (5 : ℚ))), ((10 : ℚ), (5 : ℚ))].map
        (rotNeg 1 0 (headPt [(((0 : ℚ), (5 : ℚ))), ((10 : ℚ), (5 : ℚ))])))
        ⟨0, 5, 10, 5⟩ 1 (fun _ => [])) :=
  ⟨(output_order [(((0 : ℚ), (5 : ℚ))), ((10 : ℚ), (5 : ℚ))] ⟨0, 5, 10, 5⟩ (fun _ => [])
      1 0 id 1 'F' 1 true false true true false false false none none
      (fun _ _ => []) (fun _ _ => []) "T" (fun _ => "u")).1,
   (output_order [(((0 : ℚ), (5 : ℚ))), ((10 : ℚ), (5 : ℚ))] ⟨0, 5, 10, 5⟩ (fun _ => [])
      1 0 id 1 'F' 1 true false true true false false false none none
      (fun _ _ => []) (fun _ _ => []) "T" (fun _ => "u")).2.2.2.2.2.2⟩

/-- Witness for C10: a clipper that splits the row at index 1 into two
pieces; the destination name list then contains the label of index 1
twice — one destination per piece, identical names. -/
theorem dest_name_per_piece_witness :
    (assembleRows "T" (fun _ => "u") 0
      (coreRows [(((0 : ℚ), (5 : ℚ))), ((10 : ℚ), (5 : ℚ))] ⟨0, 5, 10, 5⟩
        (fun l => if (headPt l).2 = 6 then
          [[(((0 : ℚ), (6 : ℚ))), ((4 : ℚ), (6 : ℚ))],
           [(((6 : ℚ), (6 : ℚ))), ((10 : ℚ), (6 : ℚ))]] else [])
        1 0 id 1 'F' 1 true false true true false false none none
        (fun _ _ => []) (fun _ _ => []))).2.map Feature.name
    = [some (rowLabel 'F' 1 true false true 0),
       some (rowLabel 'F' 1 true false true 1),
       some (rowLabel 'F' 1 true false true 1)] := by
  rw [(dest_name_per_piece [(((0 : ℚ), (5 : ℚ))), ((10 : ℚ), (5 : ℚ))] ⟨0, 5, 10, 5⟩
    (fun l => if (headPt l).2 = 6 then
      [[(((0 : ℚ), (6 : ℚ))), ((4 : ℚ), (6 : ℚ))],
       [(((6 : ℚ), (6 : ℚ))), ((10 : ℚ), (6 : ℚ))]] else [])
    1 0 id 1 'F' 1 true false true true false false none none
    (fun _ _ => []) (fun _ _ => []) "T" (fun _ => "u")).1]
  norm_num [coreClipped, coreRefY, sortByIndex, clipRows, rowLinesWithIndex,
    rowsBelow, rowsAbove, pyRange, rowLine, headPt, lastPt, rotNeg]
  simp [List.range_succ]
  norm_num
  simp [List.mergeSort]

end RowGen
